import Mathlib

set_option maxHeartbeats 1000000

-- ===========================================================================
-- Verification development for the Selene RAG pipeline
-- (src/selene_bot.py and src/web_app.py).
-- Definitions first, then theorems.
-- ===========================================================================

-- ===========================================================================
-- Chunker (spec-modelled)
-- ===========================================================================

/-- Modelled from the spec: the Chunker implementation used by the code is
langchain's `RecursiveCharacterTextSplitter`, an external library whose code is
not part of this repository; `src/selene_bot.py` (lines 66-71) and
`src/web_app.py` (lines 47-52) only configure it with `chunk_size=1000` and
`chunk_overlap=100`.  Following the contract of spec section 4.1, the chunker
cuts a text into passages of at most `m` characters, each passage after the
first beginning with the last `o` characters of its predecessor, so consecutive
cut points lie `m - o` characters apart.  `fuel` bounds the recursion depth and
is instantiated with the length of the text, which always suffices.  The
`max (m - o) 1` guard keeps the function total when the spec precondition
`o < m` is violated; under the precondition it equals `m - o`. -/
def chunkTextF (m o : Nat) : Nat → List Char → List (List Char)
  | _, [] => []
  | 0, _ :: _ => []
  | fuel + 1, c :: cs =>
    if (c :: cs).length ≤ m then [c :: cs]
    else (c :: cs).take m :: chunkTextF m o fuel ((c :: cs).drop (max (m - o) 1))

/-- The chunker on a single text: `chunkTextF` with enough fuel. -/
def chunkText (m o : Nat) (t : List Char) : List (List Char) :=
  chunkTextF m o t.length t

/-- Concatenation of the page texts of a document (spec section 3:
"page-concatenated text"). -/
def pageConcat : List (List Char) → List Char
  | [] => []
  | p :: ps => p ++ pageConcat ps

/-- Modelled from the spec: `chunk(pages, max_size, overlap)` of spec
section 4.1, producing the passages of one document from its ordered pages. -/
def chunkPages (m o : Nat) (pages : List (List Char)) : List (List Char) :=
  chunkText m o (pageConcat pages)

/-- Concatenation of the passages after the first, each with its declared
`o`-character overlap with its predecessor removed. -/
def deOverlapTail (o : Nat) : List (List Char) → List Char
  | [] => []
  | c :: cs => c.drop o ++ deOverlapTail o cs

/-- Concatenation of all passages in chunk-index order, minus each passage's
declared overlap with its predecessor. -/
def deOverlap (o : Nat) : List (List Char) → List Char
  | [] => []
  | c :: cs => c ++ deOverlapTail o cs

/-- `overlapsPred o a b` holds when passage `b` begins with exactly the last
`o` characters of passage `a`. -/
def overlapsPred (o : Nat) (a b : List Char) : Prop :=
  b.take o = a.drop (a.length - o)

-- ===========================================================================
-- Retriever (spec-modelled)
-- ===========================================================================

/-- Ranking order of retrieval results: higher similarity score first, ties
broken by ascending chunk index (spec section 4.4). -/
def rankLE (a b : Nat × ℚ) : Prop :=
  b.2 < a.2 ∨ (a.2 = b.2 ∧ a.1 ≤ b.1)

/-- Strict ranking order: strictly higher score, or equal score and strictly
smaller chunk index. -/
def rankLT (a b : Nat × ℚ) : Prop :=
  b.2 < a.2 ∨ (a.2 = b.2 ∧ a.1 < b.1)

instance : DecidableRel rankLE := fun a b => by unfold rankLE; infer_instance

instance : DecidableRel rankLT := fun a b => by unfold rankLT; infer_instance

instance : IsTotal (Nat × ℚ) rankLE :=
  ⟨fun a b => by
    unfold rankLE
    rcases lt_trichotomy a.2 b.2 with h | h | h
    · exact Or.inr (Or.inl h)
    · rcases Nat.le_total a.1 b.1 with hn | hn
      · exact Or.inl (Or.inr ⟨h, hn⟩)
      · exact Or.inr (Or.inr ⟨h.symm, hn⟩)
    · exact Or.inl (Or.inl h)⟩

instance : IsTrans (Nat × ℚ) rankLE :=
  ⟨fun a b c hab hbc => by
    unfold rankLE at hab hbc ⊢
    rcases hab with h1 | ⟨h1, h1n⟩
    · rcases hbc with h2 | ⟨h2, _⟩
      · exact Or.inl (h2.trans h1)
      · exact Or.inl (h2 ▸ h1)
    · rcases hbc with h2 | ⟨h2, h2n⟩
      · exact Or.inl (by rw [h1]; exact h2)
      · exact Or.inr ⟨h1.trans h2, h1n.trans h2n⟩⟩

/-- Modelled from the spec: the Embedder and the vector index's
nearest-neighbour search (Chroma's `as_retriever`, configured with `k` in
`src/selene_bot.py` line 122 and `src/web_app.py` line 90) are external
libraries whose code is not part of this repository.  Following spec
section 4.4, retrieval is modelled over the scored candidate list: each indexed
passage is a pair of its chunk index and its similarity score to the query; the
retriever orders candidates by descending similarity, ties broken by ascending
chunk index, and returns the first `k`. -/
def retrieveRanked (k : Nat) (cands : List (Nat × ℚ)) : List (Nat × ℚ) :=
  (List.insertionSort rankLE cands).take k

-- ===========================================================================
-- Data model of the two applications
-- ===========================================================================

/-- A langchain `Document`: one page's text (or one chunk's text) plus the
metadata the pipeline manipulates: the `source` path set by `PyPDFLoader` and
the optional `source_file` key that only `src/selene_bot.py` (line 59) adds. -/
structure Doc where
  text : List Char
  source : String
  sourceFile : Option String
deriving DecidableEq

/-- Observable effects of the pipeline, recorded as a trace.  `embedCall n` is
the billed "embedding for indexing" call made by `Chroma.from_documents` on `n`
chunk texts; `queryEmbed` is the query-time embedding done inside
`rag_chain.invoke`. -/
inductive Event where
  | listDir
  | loadPdf (path : String)
  | embedCall (numTexts : Nat)
  | persistIndex
  | openIndex
  | deleteIndex
  | queryEmbed
  | llmCall
deriving DecidableEq

/-- A vector store handle: its contents and its collection name. -/
structure VS where
  contents : List Doc
  collection : String
deriving DecidableEq

/-- The file-system-resident state both programs act on: the `data` directory
(filename to page texts), the single PDF configured in `src/web_app.py`
(`PDF_PATH`, `none` when the file is missing), and the persisted ChromaDB
state at `chroma_db`: whether the directory exists, whether opening it
validates, and what was persisted. -/
structure FS where
  dataDir : List (String × List (List Char))
  webPdf : Option (List (List Char))
  chromaExists : Bool
  chromaValid : Bool
  chromaContents : List Doc
  chromaCollection : String
deriving DecidableEq

def seleneCollectionName : String := "vawg_documents"

def webCollectionName : String := "sexual_offences_act"

def webPdfPath : String := "data/Sexual_Offences_Act_2003.pdf"

/-- Python's `f.endswith('.pdf')` from `src/selene_bot.py` line 39. -/
def endsWithPdf (s : String) : Bool :=
  s.data.reverse.take 4 == ['f', 'd', 'p', '.']

/-- `[f for f in os.listdir(DATA_DIR) if f.endswith('.pdf')]`
(`src/selene_bot.py` line 39). -/
def listPdfFiles (fs : FS) : List String :=
  (fs.dataDir.map (fun p => p.1)).filter (fun f => endsWithPdf f)

/-- Pages of one PDF of the data directory. -/
def pagesOf (fs : FS) (f : String) : List (List Char) :=
  (fs.dataDir.lookup f).getD []

/-- One page loaded by `src/selene_bot.py` lines 50-61: source is
`os.path.join(DATA_DIR, pdf_file)` and `doc.metadata['source_file']` is set. -/
def mkSeleneDoc (f : String) (t : List Char) : Doc :=
  { text := t, source := "data/" ++ f, sourceFile := some f }

/-- One page loaded by `src/web_app.py` lines 43-44: no `source_file` tag. -/
def mkWebDoc (t : List Char) : Doc :=
  { text := t, source := webPdfPath, sourceFile := none }

/-- `all_documents` accumulation of `src/selene_bot.py` lines 47-61. -/
def seleneLoadAll (fs : FS) : List String → List Doc
  | [] => []
  | f :: rest => (pagesOf fs f).map (mkSeleneDoc f) ++ seleneLoadAll fs rest

/-- `text_splitter.split_documents`: each document is split separately and each
chunk inherits its document's metadata. -/
def splitDocuments (m o : Nat) : List Doc → List Doc
  | [] => []
  | d :: ds =>
    (chunkText m o d.text).map (fun t => { d with text := t }) ++ splitDocuments m o ds

/-- Output of a vector-store setup operation: the returned store (if any), the
resulting file-system state, and the trace of observable effects. -/
structure SetupOut where
  store : Option VS
  fs : FS
  trace : List Event
deriving DecidableEq

/-- `create_vector_store` of `src/selene_bot.py` lines 34-87: list the PDFs in
the data directory; with none, print a message and return `None`; otherwise
load every PDF, tag each page with `source_file`, split into chunks, embed all
chunks and persist them at `chroma_db` under collection `vawg_documents`. -/
def seleneCreateVectorStore (fs : FS) : SetupOut :=
  let pdfs := listPdfFiles fs
  if pdfs = [] then { store := none, fs := fs, trace := [Event.listDir] }
  else
    let docs := seleneLoadAll fs pdfs
    let chunks := splitDocuments 1000 100 docs
    { store := some { contents := chunks, collection := seleneCollectionName },
      fs := { fs with chromaExists := true, chromaValid := true,
                      chromaContents := chunks,
                      chromaCollection := seleneCollectionName },
      trace := [Event.listDir] ++ pdfs.map Event.loadPdf
                ++ [Event.embedCall chunks.length, Event.persistIndex] }

/-- Modelled from the spec: the Chroma open step is library code not in this
repository.  Per spec sections 4.3 and 5, opening a persisted index succeeds
exactly when a complete, valid index for the requested collection is persisted
(the open step validates completeness and collection identity, not mere
existence of the directory). -/
def canOpen (fs : FS) (coll : String) : Bool :=
  fs.chromaExists && fs.chromaValid && (fs.chromaCollection == coll)

inductive LoadErr where
  | openFailure
  | missingPdf
deriving DecidableEq

instance {ε α : Type} [DecidableEq ε] [DecidableEq α] : DecidableEq (Except ε α) :=
  fun a b =>
    match a, b with
    | Except.ok x, Except.ok y =>
      if h : x = y then isTrue (by rw [h]) else isFalse (by intro hc; cases hc; exact h rfl)
    | Except.error x, Except.error y =>
      if h : x = y then isTrue (by rw [h]) else isFalse (by intro hc; cases hc; exact h rfl)
    | Except.ok _, Except.error _ => isFalse (by intro hc; cases hc)
    | Except.error _, Except.ok _ => isFalse (by intro hc; cases hc)

/-- `load_existing_vector_store` (`src/selene_bot.py` lines 89-102,
`src/web_app.py` lines 67-76): open the persisted store, raising when the open
step fails.  The file system is not modified. -/
def loadExistingVectorStore (coll : String) (fs : FS) : Except LoadErr VS × List Event :=
  if canOpen fs coll then
    (Except.ok { contents := fs.chromaContents, collection := coll }, [Event.openIndex])
  else
    (Except.error LoadErr.openFailure, [Event.openIndex])

/-- `setup_vector_store` of `src/selene_bot.py` lines 104-116: if `chroma_db`
exists, try to load it; on any exception fall back to a full rebuild; if the
directory does not exist, build. -/
def seleneSetupVectorStore (fs : FS) : SetupOut :=
  if fs.chromaExists then
    match loadExistingVectorStore seleneCollectionName fs with
    | (Except.ok vs, tr) => { store := some vs, fs := fs, trace := tr }
    | (Except.error _, tr) =>
      let out := seleneCreateVectorStore fs
      { out with trace := tr ++ out.trace }
  else seleneCreateVectorStore fs

/-- `reset_vector_store` of `src/selene_bot.py` lines 184-191: if `chroma_db`
exists, `shutil.rmtree` it; otherwise just print.  Never raises. -/
def resetVectorStore (fs : FS) : FS × List Event :=
  if fs.chromaExists then
    ({ fs with chromaExists := false, chromaValid := false,
               chromaContents := [], chromaCollection := "" },
     [Event.deleteIndex])
  else (fs, [])

/-- Output of the web app's fallible vector-store operations. -/
structure WebOut where
  store : Except LoadErr VS
  fs : FS
  trace : List Event
deriving DecidableEq

/-- `create_vector_store` of `src/web_app.py` lines 41-65: load the single
configured PDF (raising when it is missing), split, embed and persist under
collection `sexual_offences_act`.  No `source_file` metadata is added and there
is no empty-corpus check. -/
def webCreateVectorStore (fs : FS) : WebOut :=
  match fs.webPdf with
  | none =>
    { store := Except.error LoadErr.missingPdf, fs := fs,
      trace := [Event.loadPdf webPdfPath] }
  | some pages =>
    let docs := pages.map mkWebDoc
    let chunks := splitDocuments 1000 100 docs
    { store := Except.ok { contents := chunks, collection := webCollectionName },
      fs := { fs with chromaExists := true, chromaValid := true,
                      chromaContents := chunks,
                      chromaCollection := webCollectionName },
      trace := [Event.loadPdf webPdfPath, Event.embedCall chunks.length,
                Event.persistIndex] }

/-- `setup_vector_store` of `src/web_app.py` lines 78-87. -/
def webSetupVectorStore (fs : FS) : WebOut :=
  if fs.chromaExists then
    match loadExistingVectorStore webCollectionName fs with
    | (Except.ok vs, tr) => { store := Except.ok vs, fs := fs, trace := tr }
    | (Except.error _, tr) =>
      let out := webCreateVectorStore fs
      { out with trace := tr ++ out.trace }
  else webCreateVectorStore fs

/-- The RAG chain built by `setup_rag_chain` (`src/web_app.py` lines 89-113):
a retriever over the store with `k = 3`, combined with the LLM. -/
structure RagChain where
  k : Nat
  store : VS
deriving DecidableEq

def setupRagChain (vs : VS) : RagChain := { k := 3, store := vs }

/-- The web app's process state: the module-level global `rag_chain`
(`src/web_app.py` lines 29-30) plus the file system. -/
structure WebState where
  ragChain : Option RagChain
  fs : FS
deriving DecidableEq

structure InitOut where
  result : Except LoadErr Unit
  state : WebState
  trace : List Event
deriving DecidableEq

/-- `initialize_rag` of `src/web_app.py` lines 115-121: if the global
`rag_chain` is still `None`, set up the vector store (opening or building it)
and build the chain; otherwise do nothing. -/
def initializeRag (st : WebState) : InitOut :=
  match st.ragChain with
  | some _ => { result := Except.ok (), state := st, trace := [] }
  | none =>
    let out := webSetupVectorStore st.fs
    match out.store with
    | Except.ok vs =>
      { result := Except.ok (),
        state := { ragChain := some (setupRagChain vs), fs := out.fs },
        trace := out.trace }
    | Except.error e =>
      { result := Except.error e,
        state := { ragChain := none, fs := out.fs },
        trace := out.trace }

/-- Modelled from the spec: the Answer Generator is an external collaborator
consuming the query and the retrieved passages and returning free text; its
output is opaque to this development. -/
def answerFor (q : String) : String := q

inductive ChatResult where
  | success (answer : String)
  | serverError
deriving DecidableEq

structure ChatOut where
  result : ChatResult
  state : WebState
  trace : List Event
deriving DecidableEq

/-- The `/chat` handler of `src/web_app.py` lines 129-149: call
`initialize_rag()` (building the index on the first request if needed), then
invoke the chain (query embedding plus LLM call) and answer 200; any exception
is caught and answered as a generic 500 error. -/
def chat (st : WebState) (msg : String) : ChatOut :=
  let init := initializeRag st
  match init.result with
  | Except.error _ =>
    { result := ChatResult.serverError, state := init.state, trace := init.trace }
  | Except.ok _ =>
    match init.state.ragChain with
    | some _ =>
      { result := ChatResult.success (answerFor msg),
        state := init.state,
        trace := init.trace ++ [Event.queryEmbed, Event.llmCall] }
    | none =>
      { result := ChatResult.serverError, state := init.state, trace := init.trace }

/-- Recognize the billed indexing-embedding events in a trace. -/
def isEmbedEvent : Event → Bool
  | Event.embedCall _ => true
  | _ => false

/-- Number of billed indexing-embedding calls in a trace. -/
def countEmbedCalls (tr : List Event) : Nat :=
  (tr.filter isEmbedEvent).length

-- ===========================================================================
-- Concrete states used by counterexamples and witnesses
-- ===========================================================================

/-- An empty world: no data files, no web PDF, no persisted index. -/
def fsEmptyDir : FS :=
  { dataDir := [], webPdf := none, chromaExists := false, chromaValid := false,
    chromaContents := [], chromaCollection := "" }

/-- A data directory with a single small PDF and no persisted index. -/
def fsOnePdf : FS :=
  { dataDir := [("a.pdf", [['h', 'i']])], webPdf := none, chromaExists := false,
    chromaValid := false, chromaContents := [], chromaCollection := "" }

/-- A data directory containing only a non-PDF file. -/
def fsNoPdf : FS :=
  { dataDir := [("readme.txt", [['x']])], webPdf := none, chromaExists := false,
    chromaValid := false, chromaContents := [], chromaCollection := "" }

def actPages : List (List Char) := [['h', 'i']]

def actFileName : String := "Sexual_Offences_Act_2003.pdf"

/-- A world where the Act is available both as the web app's single PDF and as
the one file of the data directory. -/
def fsBoth : FS :=
  { dataDir := [(actFileName, actPages)],
    webPdf := some actPages, chromaExists := false, chromaValid := false,
    chromaContents := [], chromaCollection := "" }

/-- The chunk the multi-PDF pipeline produces from `fsBoth`. -/
def seleneChunkW : Doc :=
  { text := ['h', 'i'], source := "data/" ++ actFileName, sourceFile := some actFileName }

/-- The chunk the single-PDF pipeline produces from `fsBoth`. -/
def webChunkW : Doc :=
  { text := ['h', 'i'], source := webPdfPath, sourceFile := none }

/-- A small scored candidate list with distinct chunk indices and a score tie. -/
def candsW : List (Nat × ℚ) := [(0, 1), (1, 2), (2, 2)]

/-- Fresh web-app process state: global `rag_chain` unset, nothing persisted,
the configured PDF present. -/
def stFresh : WebState :=
  { ragChain := none,
    fs := { dataDir := [], webPdf := some [['h', 'i']], chromaExists := false,
            chromaValid := false, chromaContents := [], chromaCollection := "" } }

def msgHi : String := "hi"

def chain0 : RagChain :=
  { k := 3, store := { contents := [], collection := webCollectionName } }

/-- Web-app process state whose global `rag_chain` is already initialized. -/
def stReady : WebState := { ragChain := some chain0, fs := fsEmptyDir }

-- ===========================================================================
-- Chunker lemmas
-- ===========================================================================

theorem chunkTextF_nil (m o fuel : Nat) : chunkTextF m o fuel [] = [] := by
  cases fuel <;> rfl

theorem chunkTextF_succ_small (m o f : Nat) (t : List Char) (h0 : t ≠ [])
    (h : t.length ≤ m) : chunkTextF m o (f + 1) t = [t] := by
  cases t with
  | nil => exact absurd rfl h0
  | cons c cs =>
    simp only [chunkTextF]
    rw [if_pos h]

theorem chunkTextF_succ_big (m o f : Nat) (t : List Char) (h : m < t.length) :
    chunkTextF m o (f + 1) t
      = t.take m :: chunkTextF m o f (t.drop (max (m - o) 1)) := by
  cases t with
  | nil => simp at h
  | cons c cs =>
    simp only [chunkTextF]
    rw [if_neg (by omega)]

theorem chunkTextF_fuelEq (m o : Nat) :
    ∀ f₁ f₂ t, t.length ≤ f₁ → t.length ≤ f₂ →
      chunkTextF m o f₁ t = chunkTextF m o f₂ t := by
  intro f₁
  induction f₁ with
  | zero =>
    intro f₂ t h1 _
    have ht : t = [] := List.length_eq_zero.mp (Nat.le_zero.mp h1)
    rw [ht, chunkTextF_nil, chunkTextF_nil]
  | succ f ih =>
    intro f₂ t h1 h2
    by_cases h0 : t = []
    · rw [h0, chunkTextF_nil, chunkTextF_nil]
    cases f₂ with
    | zero =>
      have ht : t = [] := List.length_eq_zero.mp (Nat.le_zero.mp h2)
      exact absurd ht h0
    | succ g =>
      by_cases hm : t.length ≤ m
      · rw [chunkTextF_succ_small _ _ _ _ h0 hm, chunkTextF_succ_small _ _ _ _ h0 hm]
      · push_neg at hm
        rw [chunkTextF_succ_big _ _ _ _ hm, chunkTextF_succ_big _ _ _ _ hm]
        congr 1
        apply ih
        · simp only [List.length_drop]
          omega
        · simp only [List.length_drop]
          omega

theorem chunkText_eq_chunkTextF (m o f : Nat) (t : List Char) (h : t.length ≤ f) :
    chunkText m o t = chunkTextF m o f t :=
  chunkTextF_fuelEq m o t.length f t (le_refl _) h

theorem chunkTextF_head (m o f : Nat) (t : List Char) (h0 : t ≠ [])
    (hf : t.length ≤ f) : ∃ rest, chunkTextF m o f t = t.take m :: rest := by
  cases f with
  | zero =>
    exact absurd (List.length_eq_zero.mp (Nat.le_zero.mp hf)) h0
  | succ g =>
    by_cases hm : t.length ≤ m
    · rw [chunkTextF_succ_small _ _ _ _ h0 hm]
      exact ⟨[], by rw [List.take_of_length_le hm]⟩
    · push_neg at hm
      rw [chunkTextF_succ_big _ _ _ _ hm]
      exact ⟨_, rfl⟩

theorem deOverlap_chunkTextF (m o : Nat) (hmo : o < m) :
    ∀ f t, t.length ≤ f → deOverlap o (chunkTextF m o f t) = t := by
  intro f
  induction f with
  | zero =>
    intro t ht
    rw [List.length_eq_zero.mp (Nat.le_zero.mp ht), chunkTextF_nil]
    rfl
  | succ g ih =>
    intro t ht
    by_cases h0 : t = []
    · rw [h0, chunkTextF_nil]; rfl
    by_cases hm : t.length ≤ m
    · rw [chunkTextF_succ_small _ _ _ _ h0 hm]
      simp [deOverlap, deOverlapTail]
    · push_neg at hm
      rw [chunkTextF_succ_big _ _ _ _ hm]
      have hs : max (m - o) 1 = m - o := by omega
      rw [hs]
      set r := t.drop (m - o) with hr
      have hrlen : r.length = t.length - (m - o) := by
        rw [hr, List.length_drop]
      have hrle : r.length ≤ g := by omega
      have hrne : r ≠ [] := by
        intro hnil
        rw [hnil] at hrlen
        simp only [List.length_nil] at hrlen
        omega
      obtain ⟨rest, hrest⟩ := chunkTextF_head m o g r hrne hrle
      have hrec := ih r hrle
      rw [hrest] at hrec ⊢
      simp only [deOverlap, deOverlapTail] at hrec ⊢
      have hrtakelen : o ≤ (r.take m).length := by
        rw [List.length_take]
        omega
      calc t.take m ++ ((r.take m).drop o ++ deOverlapTail o rest)
          = t.take m ++ (r.take m ++ deOverlapTail o rest).drop o := by
            rw [List.drop_append_of_le_length hrtakelen]
        _ = t.take m ++ r.drop o := by rw [hrec]
        _ = t.take m ++ t.drop m := by
            have hsum : (m - o) + o = m := by omega
            rw [hr, List.drop_drop, hsum]
        _ = t := List.take_append_drop m t

theorem chain_chunkTextF (m o : Nat) (hmo : o < m) :
    ∀ f t, t.length ≤ f → List.Chain' (overlapsPred o) (chunkTextF m o f t) := by
  intro f
  induction f with
  | zero =>
    intro t ht
    rw [List.length_eq_zero.mp (Nat.le_zero.mp ht), chunkTextF_nil]
    exact List.chain'_nil
  | succ g ih =>
    intro t ht
    by_cases h0 : t = []
    · rw [h0, chunkTextF_nil]; exact List.chain'_nil
    by_cases hm : t.length ≤ m
    · rw [chunkTextF_succ_small _ _ _ _ h0 hm]
      exact List.chain'_singleton t
    · push_neg at hm
      rw [chunkTextF_succ_big _ _ _ _ hm]
      have hs : max (m - o) 1 = m - o := by omega
      rw [hs]
      set r := t.drop (m - o) with hr
      have hrlen : r.length = t.length - (m - o) := by
        rw [hr, List.length_drop]
      have hrle : r.length ≤ g := by omega
      have hrne : r ≠ [] := by
        intro hnil
        rw [hnil] at hrlen
        simp only [List.length_nil] at hrlen
        omega
      obtain ⟨rest, hrest⟩ := chunkTextF_head m o g r hrne hrle
      have hchain := ih r hrle
      rw [hrest] at hchain ⊢
      rw [List.chain'_cons]
      refine ⟨?_, hchain⟩
      unfold overlapsPred
      rw [List.take_take, List.length_take]
      have h1 : min o m = o := by omega
      have h2 : min m t.length = m := by omega
      rw [h1, h2, List.drop_take, ← hr]
      congr 1
      omega

theorem length_chunkTextF (m o : Nat) :
    ∀ f t c, t.length ≤ f → c ∈ chunkTextF m o f t → c.length ≤ m := by
  intro f
  induction f with
  | zero =>
    intro t c ht hc
    rw [List.length_eq_zero.mp (Nat.le_zero.mp ht), chunkTextF_nil] at hc
    simp at hc
  | succ g ih =>
    intro t c ht hc
    by_cases h0 : t = []
    · rw [h0, chunkTextF_nil] at hc
      simp at hc
    by_cases hm : t.length ≤ m
    · rw [chunkTextF_succ_small _ _ _ _ h0 hm] at hc
      simp only [List.mem_singleton] at hc
      rw [hc]
      exact hm
    · push_neg at hm
      rw [chunkTextF_succ_big _ _ _ _ hm] at hc
      rcases List.mem_cons.mp hc with h | h
      · rw [h, List.length_take]
        omega
      · refine ih _ _ ?_ h
        simp only [List.length_drop]
        omega

-- ===========================================================================
-- Claims C4, C5, C6: chunker properties
-- ===========================================================================

/-- Claim C4: round-trip reconstruction.  For every document fed to the
chunker with the configured `max_size = 1000` and `overlap = 100`,
concatenating all of its passages in chunk-index order, after removing each
passage's declared overlap with its predecessor, yields exactly the document's
original page-concatenated text. -/
theorem passages_reconstruct (pages : List (List Char)) :
    deOverlap 100 (chunkPages 1000 100 pages) = pageConcat pages := by
  have h := deOverlap_chunkTextF 1000 100 (by omega) (pageConcat pages).length
    (pageConcat pages) (le_refl _)
  simpa [chunkPages, chunkText] using h

/-- Claim C5: size bound.  Every passage the chunker produces with the
configured `max_size = 1000` has text length at most `1000` (the allowance for
a single unsplittable over-long token is never needed: the modelled chunker
splits at character granularity, so the bound holds unconditionally). -/
theorem passage_size_bound (pages : List (List Char)) (c : List Char)
    (hc : c ∈ chunkPages 1000 100 pages) : c.length ≤ 1000 := by
  have hc' : c ∈ chunkTextF 1000 100 (pageConcat pages).length (pageConcat pages) := by
    simpa [chunkPages, chunkText] using hc
  exact length_chunkTextF 1000 100 _ _ c (le_refl _) hc'

/-- Witness for claim C5 at a concrete input. -/
theorem passage_size_bound_witness :
    (['h', 'i'] ∈ chunkPages 1000 100 [['h', 'i']])
      ∧ (['h', 'i'] : List Char).length ≤ 1000 :=
  ⟨by decide, passage_size_bound [['h', 'i']] ['h', 'i'] (by decide)⟩

/-- Claim C6: overlap property.  For every input to the chunker with the
configured `overlap = 100`, every passage after the first begins with exactly
the last `100` characters of the previous passage's text. -/
theorem passages_overlap (pages : List (List Char)) :
    List.Chain' (overlapsPred 100) (chunkPages 1000 100 pages) := by
  have h := chain_chunkTextF 1000 100 (by omega) (pageConcat pages).length
    (pageConcat pages) (le_refl _)
  simpa [chunkPages, chunkText] using h

-- ===========================================================================
-- Claim C7: retrieval ranking
-- ===========================================================================

/-- Claim C7: for every query's scored candidate list with distinct chunk
indices and every `k > 0`, retrieval returns at most `k` results, ordered
strictly descending by similarity score with ties broken by ascending chunk
index. -/
theorem retrieve_topk (k : Nat) (cands : List (Nat × ℚ)) (hk : 0 < k)
    (hnd : (cands.map Prod.fst).Nodup) :
    (retrieveRanked k cands).length ≤ k
      ∧ List.Pairwise rankLT (retrieveRanked k cands) := by
  constructor
  · rw [retrieveRanked, List.length_take]
    exact min_le_left _ _
  · have hsorted : List.Pairwise rankLE (List.insertionSort rankLE cands) :=
      List.sorted_insertionSort rankLE cands
    have hperm : List.Perm (List.insertionSort rankLE cands) cands :=
      List.perm_insertionSort rankLE cands
    have hndsorted : ((List.insertionSort rankLE cands).map Prod.fst).Nodup :=
      ((hperm.map Prod.fst).nodup_iff).mpr hnd
    have hne : List.Pairwise (fun a b : Nat × ℚ => a.1 ≠ b.1)
        (List.insertionSort rankLE cands) := List.pairwise_map.mp hndsorted
    have hlt : List.Pairwise rankLT (List.insertionSort rankLE cands) := by
      refine (hsorted.and hne).imp ?_
      rintro a b ⟨hab, hne'⟩
      rcases hab with h | ⟨h, hle⟩
      · exact Or.inl h
      · exact Or.inr ⟨h, lt_of_le_of_ne hle hne'⟩
    exact hlt.sublist (List.take_sublist k _)

/-- Witness for claim C7 at a concrete input. -/
theorem retrieve_topk_witness :
    (0 < 3 ∧ (candsW.map Prod.fst).Nodup)
      ∧ (retrieveRanked 3 candsW).length ≤ 3
      ∧ List.Pairwise rankLT (retrieveRanked 3 candsW) :=
  ⟨⟨by decide, by decide⟩, retrieve_topk 3 candsW (by decide) (by decide)⟩

-- ===========================================================================
-- Helper lemmas about the two applications
-- ===========================================================================

theorem seleneCreate_empty (fs : FS) (h : listPdfFiles fs = []) :
    seleneCreateVectorStore fs = { store := none, fs := fs, trace := [Event.listDir] } := by
  simp [seleneCreateVectorStore, h]

theorem seleneCreate_build (fs : FS) (h : listPdfFiles fs ≠ []) :
    seleneCreateVectorStore fs =
      { store := some { contents := splitDocuments 1000 100 (seleneLoadAll fs (listPdfFiles fs)),
                        collection := seleneCollectionName },
        fs := { fs with chromaExists := true, chromaValid := true,
                        chromaContents :=
                          splitDocuments 1000 100 (seleneLoadAll fs (listPdfFiles fs)),
                        chromaCollection := seleneCollectionName },
        trace := [Event.listDir] ++ (listPdfFiles fs).map Event.loadPdf
                  ++ [Event.embedCall
                        (splitDocuments 1000 100 (seleneLoadAll fs (listPdfFiles fs))).length,
                      Event.persistIndex] } := by
  simp [seleneCreateVectorStore, h]

theorem seleneSetup_eq (fs : FS) :
    seleneSetupVectorStore fs =
      if canOpen fs seleneCollectionName then
        { store := some { contents := fs.chromaContents, collection := seleneCollectionName },
          fs := fs, trace := [Event.openIndex] }
      else if fs.chromaExists then
        { seleneCreateVectorStore fs with
          trace := [Event.openIndex] ++ (seleneCreateVectorStore fs).trace }
      else seleneCreateVectorStore fs := by
  by_cases hco : canOpen fs seleneCollectionName = true
  · have hex : fs.chromaExists = true := by
      revert hco
      unfold canOpen
      cases fs.chromaExists <;> simp
    rw [if_pos hco]
    simp [seleneSetupVectorStore, hex, loadExistingVectorStore, hco]
  · rw [if_neg hco]
    by_cases hex : fs.chromaExists = true
    · simp [seleneSetupVectorStore, hex, loadExistingVectorStore, hco]
    · simp only [Bool.not_eq_true] at hex
      simp [seleneSetupVectorStore, hex]

theorem filter_embed_loadPdfs (files : List String) :
    (files.map Event.loadPdf).filter isEmbedEvent = [] := by
  induction files with
  | nil => rfl
  | cons f rest ih => simp [isEmbedEvent, ih]

theorem webCreate_some (fs : FS) (pages : List (List Char)) (hp : fs.webPdf = some pages) :
    webCreateVectorStore fs =
      { store := Except.ok { contents := splitDocuments 1000 100 (pages.map mkWebDoc),
                             collection := webCollectionName },
        fs := { fs with chromaExists := true, chromaValid := true,
                        chromaContents := splitDocuments 1000 100 (pages.map mkWebDoc),
                        chromaCollection := webCollectionName },
        trace := [Event.loadPdf webPdfPath,
                  Event.embedCall (splitDocuments 1000 100 (pages.map mkWebDoc)).length,
                  Event.persistIndex] } := by
  simp [webCreateVectorStore, hp]

theorem map_text_update (d : Doc) (l : List (List Char)) :
    (l.map (fun t => ({ d with text := t } : Doc))).map Doc.text = l := by
  induction l with
  | nil => rfl
  | cons x xs ih => simp only [List.map_cons]; rw [ih]

theorem splitDocuments_text_congr (m o : Nat) (pages : List (List Char))
    (f g : List Char → Doc) (hf : ∀ t, (f t).text = t) (hg : ∀ t, (g t).text = t) :
    (splitDocuments m o (pages.map f)).map Doc.text
      = (splitDocuments m o (pages.map g)).map Doc.text := by
  induction pages with
  | nil => rfl
  | cons p ps ih =>
    simp only [List.map_cons, splitDocuments, List.map_append]
    rw [map_text_update, map_text_update, ih, hf, hg]

theorem splitDocuments_sourceFile (m o : Nat) (ds : List Doc) (v : Option String)
    (h : ∀ d ∈ ds, d.sourceFile = v) :
    ∀ c ∈ splitDocuments m o ds, c.sourceFile = v := by
  induction ds with
  | nil =>
    intro c hc
    simp [splitDocuments] at hc
  | cons d ds ih =>
    intro c hc
    simp only [splitDocuments, List.mem_append, List.mem_map] at hc
    rcases hc with ⟨t, _, rfl⟩ | hc
    · exact h d (List.mem_cons_self d ds)
    · exact ih (fun x hx => h x (List.mem_cons_of_mem d hx)) c hc

-- ===========================================================================
-- Claim C1: cache-reuse policy of setup_vector_store
-- ===========================================================================

/-- Claim C1 counterexample: with no persisted index and an empty data
directory, `setup_vector_store` performs no embedding call, persists nothing
and returns no index, contradicting the claim's unconditional "a full build is
run ... and the fresh index is returned" for invocations without an openable
persisted index. -/
theorem setup_cache_reuse_cex :
    fsEmptyDir.chromaExists = false
  ∧ (seleneSetupVectorStore fsEmptyDir).store = none
  ∧ countEmbedCalls (seleneSetupVectorStore fsEmptyDir).trace = 0
  ∧ Event.persistIndex ∉ (seleneSetupVectorStore fsEmptyDir).trace := by decide

/-- Claim C1 (amended): `setup_vector_store` implements the cache-reuse policy
provided the data directory holds at least one PDF.  When the persisted index
opens successfully it is returned as is, with zero embedding calls and no
rebuild; when it cannot be opened (absent or invalid) and at least one PDF
exists, a full build runs — exactly one bulk embedding call and a persist —
and the fresh index is returned; and two consecutive calls with an unchanged
nonempty corpus build (one embedding call) on the first call and make zero
embedding calls on the second, which returns the persisted index. -/
theorem setup_cache_reuse (fs : FS) :
    (canOpen fs seleneCollectionName = true →
        seleneSetupVectorStore fs
            = { store := some { contents := fs.chromaContents,
                                collection := seleneCollectionName },
                fs := fs, trace := [Event.openIndex] }
          ∧ countEmbedCalls (seleneSetupVectorStore fs).trace = 0)
  ∧ (canOpen fs seleneCollectionName = false → listPdfFiles fs ≠ [] →
        (seleneSetupVectorStore fs).store
            = some { contents := splitDocuments 1000 100 (seleneLoadAll fs (listPdfFiles fs)),
                     collection := seleneCollectionName }
          ∧ countEmbedCalls (seleneSetupVectorStore fs).trace = 1
          ∧ Event.persistIndex ∈ (seleneSetupVectorStore fs).trace
          ∧ canOpen (seleneSetupVectorStore fs).fs seleneCollectionName = true)
  ∧ (fs.chromaExists = false → listPdfFiles fs ≠ [] →
        countEmbedCalls (seleneSetupVectorStore fs).trace = 1
          ∧ countEmbedCalls (seleneSetupVectorStore (seleneSetupVectorStore fs).fs).trace = 0
          ∧ (seleneSetupVectorStore (seleneSetupVectorStore fs).fs).store
              = some { contents := (seleneSetupVectorStore fs).fs.chromaContents,
                       collection := seleneCollectionName }) := by
  have hfast : ∀ g : FS, canOpen g seleneCollectionName = true →
      seleneSetupVectorStore g
        = { store := some { contents := g.chromaContents,
                            collection := seleneCollectionName },
            fs := g, trace := [Event.openIndex] } := by
    intro g hg
    rw [seleneSetup_eq g, if_pos hg]
  have hbuild : ∀ g : FS, canOpen g seleneCollectionName = false → listPdfFiles g ≠ [] →
      (seleneSetupVectorStore g).store
          = some { contents := splitDocuments 1000 100 (seleneLoadAll g (listPdfFiles g)),
                   collection := seleneCollectionName }
        ∧ countEmbedCalls (seleneSetupVectorStore g).trace = 1
        ∧ Event.persistIndex ∈ (seleneSetupVectorStore g).trace
        ∧ canOpen (seleneSetupVectorStore g).fs seleneCollectionName = true := by
    intro g hg hne
    have hco' : ¬ (canOpen g seleneCollectionName = true) := by simp [hg]
    rw [seleneSetup_eq g, if_neg hco']
    by_cases hex : g.chromaExists = true
    · rw [if_pos hex, seleneCreate_build g hne]
      refine ⟨rfl, ?_, ?_, ?_⟩
      · simp [countEmbedCalls, List.filter_append, filter_embed_loadPdfs, isEmbedEvent]
      · simp [List.mem_append]
      · simp [canOpen]
    · rw [if_neg hex, seleneCreate_build g hne]
      refine ⟨rfl, ?_, ?_, ?_⟩
      · simp [countEmbedCalls, List.filter_append, filter_embed_loadPdfs, isEmbedEvent]
      · simp [List.mem_append]
      · simp [canOpen]
  refine ⟨?_, ?_, ?_⟩
  · intro h
    rw [hfast fs h]
    exact ⟨rfl, rfl⟩
  · exact hbuild fs
  · intro hex hne
    have hco : canOpen fs seleneCollectionName = false := by simp [canOpen, hex]
    obtain ⟨_, h2, _, h5⟩ := hbuild fs hco hne
    refine ⟨h2, ?_, ?_⟩
    · rw [hfast _ h5]
      rfl
    · rw [hfast _ h5]

/-- Witness for claim C1: one small PDF, nothing persisted; the first call
embeds once, the second call embeds zero times and returns the persisted
index. -/
theorem setup_cache_reuse_witness :
    countEmbedCalls (seleneSetupVectorStore fsOnePdf).trace = 1
  ∧ countEmbedCalls (seleneSetupVectorStore (seleneSetupVectorStore fsOnePdf).fs).trace = 0
  ∧ (seleneSetupVectorStore (seleneSetupVectorStore fsOnePdf).fs).store
      = some { contents := (seleneSetupVectorStore fsOnePdf).fs.chromaContents,
               collection := seleneCollectionName } :=
  (setup_cache_reuse fsOnePdf).2.2 rfl (by decide)

-- ===========================================================================
-- Claim C2: querying before initialization
-- ===========================================================================

/-- Claim C2 counterexample: from a fresh process state (global `rag_chain`
unset, nothing persisted), a query succeeds with an answer — it does not fail
with any error, let alone an `IndexNotReadyError` (no such error exists in the
code) — and the trace of that very query contains the document load and the
billed indexing embedding call: the read path itself triggered the build. -/
theorem chat_before_ready_cex :
    stFresh.ragChain = none
  ∧ (chat stFresh msgHi).result = ChatResult.success (answerFor msgHi)
  ∧ Event.loadPdf webPdfPath ∈ (chat stFresh msgHi).trace
  ∧ countEmbedCalls (chat stFresh msgHi).trace = 1 := by decide

/-- Claim C2 (amended): the web app's read path initializes lazily instead of
failing.  A query issued before any initialization, with nothing persisted and
the configured PDF present, succeeds with an answer; its own trace performs
exactly one indexing embedding call and a persist (the build), and it leaves
the global chain initialized.  No `IndexNotReadyError` is ever raised. -/
theorem chat_lazy_init (st : WebState) (msg : String)
    (h1 : st.ragChain = none) (h2 : st.fs.chromaExists = false)
    (h3 : st.fs.webPdf ≠ none) :
    (chat st msg).result = ChatResult.success (answerFor msg)
  ∧ countEmbedCalls (chat st msg).trace = 1
  ∧ Event.persistIndex ∈ (chat st msg).trace
  ∧ (chat st msg).state.ragChain ≠ none := by
  obtain ⟨pages, hp⟩ : ∃ p, st.fs.webPdf = some p := by
    cases hw : st.fs.webPdf with
    | none => exact absurd hw h3
    | some p => exact ⟨p, rfl⟩
  have hsetup : webSetupVectorStore st.fs = webCreateVectorStore st.fs := by
    simp [webSetupVectorStore, h2]
  have hcreate := webCreate_some st.fs pages hp
  have hinit : initializeRag st =
      InitOut.mk (Except.ok ())
        (WebState.mk
          (some (RagChain.mk 3
            (VS.mk (splitDocuments 1000 100 (pages.map mkWebDoc)) webCollectionName)))
          (FS.mk st.fs.dataDir st.fs.webPdf true true
            (splitDocuments 1000 100 (pages.map mkWebDoc)) webCollectionName))
        [Event.loadPdf webPdfPath,
         Event.embedCall (splitDocuments 1000 100 (pages.map mkWebDoc)).length,
         Event.persistIndex] := by
    simp [initializeRag, h1, hsetup, hcreate, setupRagChain]
  have hchat : chat st msg =
      ChatOut.mk (ChatResult.success (answerFor msg))
        (initializeRag st).state
        [Event.loadPdf webPdfPath,
         Event.embedCall (splitDocuments 1000 100 (pages.map mkWebDoc)).length,
         Event.persistIndex, Event.queryEmbed, Event.llmCall] := by
    simp [chat, hinit]
  rw [hchat]
  refine ⟨rfl, rfl, ?_, ?_⟩
  · simp
  · rw [hinit]
    simp

/-- Witness for claim C2 at the fresh concrete state. -/
theorem chat_lazy_init_witness :
    (chat stFresh msgHi).result = ChatResult.success (answerFor msgHi)
  ∧ countEmbedCalls (chat stFresh msgHi).trace = 1
  ∧ Event.persistIndex ∈ (chat stFresh msgHi).trace
  ∧ (chat stFresh msgHi).state.ragChain ≠ none :=
  chat_lazy_init stFresh msgHi rfl rfl (by decide)

-- ===========================================================================
-- Claim C3: empty corpus
-- ===========================================================================

/-- Claim C3 counterexample: with a data directory containing no PDF, the
build path returns the ordinary value `None` with an unchanged file system —
it terminates normally after printing a message instead of failing with a
`ConfigurationError` (the function has no error outcome on this path at
all). -/
theorem empty_corpus_cex :
    listPdfFiles fsNoPdf = []
  ∧ seleneCreateVectorStore fsNoPdf
      = { store := none, fs := fsNoPdf, trace := [Event.listDir] } := by decide

/-- Claim C3 (amended): for a corpus containing no PDF documents, the build
path returns `None` after only listing the directory: no error is raised, no
embedding happens, and nothing is persisted — so no silent empty index is
produced, but no `ConfigurationError` is raised either. -/
theorem empty_corpus_returns_none (fs : FS) (h : listPdfFiles fs = []) :
    (seleneCreateVectorStore fs).store = none
  ∧ (seleneCreateVectorStore fs).fs = fs
  ∧ (seleneCreateVectorStore fs).trace = [Event.listDir] := by
  rw [seleneCreate_empty fs h]
  exact ⟨rfl, rfl, rfl⟩

/-- Witness for claim C3 at the empty concrete directory. -/
theorem empty_corpus_returns_none_witness :
    (seleneCreateVectorStore fsEmptyDir).store = none
  ∧ (seleneCreateVectorStore fsEmptyDir).fs = fsEmptyDir
  ∧ (seleneCreateVectorStore fsEmptyDir).trace = [Event.listDir] :=
  empty_corpus_returns_none fsEmptyDir (by decide)

-- ===========================================================================
-- Claim C8: one-PDF pipeline versus many-PDF pipeline
-- ===========================================================================

/-- Claim C8 counterexample: on the very same one-document corpus the two
pipelines persist different chunk metadata (the multi-PDF pipeline tags
`source_file`, the single-PDF one does not) and different collection names,
although the chunk texts agree. -/
theorem pipelines_not_identical_cex :
    (seleneCreateVectorStore fsBoth).fs.chromaContents
        ≠ (webCreateVectorStore fsBoth).fs.chromaContents
  ∧ (seleneCreateVectorStore fsBoth).fs.chromaCollection
        ≠ (webCreateVectorStore fsBoth).fs.chromaCollection
  ∧ (seleneCreateVectorStore fsBoth).fs.chromaContents.map Doc.text
        = (webCreateVectorStore fsBoth).fs.chromaContents.map Doc.text := by decide

/-- Claim C8 (amended): for a corpus of one document the two build pipelines
are equivalent on passage texts and their order, but not on metadata or index
identity: every chunk of the multi-PDF pipeline carries
`source_file = some name` while every chunk of the single-PDF pipeline carries
none (and the collections are named differently). -/
theorem pipelines_same_texts (pages : List (List Char)) (fs : FS)
    (hd : fs.dataDir = [(actFileName, pages)]) (hw : fs.webPdf = some pages) :
    ((seleneCreateVectorStore fs).fs.chromaContents.map Doc.text
        = (webCreateVectorStore fs).fs.chromaContents.map Doc.text)
  ∧ (∀ d ∈ (seleneCreateVectorStore fs).fs.chromaContents,
        d.sourceFile = some actFileName)
  ∧ (∀ d ∈ (webCreateVectorStore fs).fs.chromaContents, d.sourceFile = none) := by
  have hlist : listPdfFiles fs = [actFileName] := by
    simp only [listPdfFiles]
    rw [hd]
    rfl
  have hne : listPdfFiles fs ≠ [] := by
    rw [hlist]
    simp
  have hload : seleneLoadAll fs (listPdfFiles fs) = pages.map (mkSeleneDoc actFileName) := by
    rw [hlist]
    simp [seleneLoadAll, pagesOf, hd, List.lookup]
  have hS := seleneCreate_build fs hne
  have hW := webCreate_some fs pages hw
  rw [hS, hW, hload]
  refine ⟨?_, ?_, ?_⟩
  · exact splitDocuments_text_congr 1000 100 pages (mkSeleneDoc actFileName) mkWebDoc
      (fun t => rfl) (fun t => rfl)
  · intro d hdm
    refine splitDocuments_sourceFile 1000 100 (pages.map (mkSeleneDoc actFileName))
      (some actFileName) ?_ d hdm
    intro x hx
    obtain ⟨t, _, rfl⟩ := List.mem_map.mp hx
    rfl
  · intro d hdm
    refine splitDocuments_sourceFile 1000 100 (pages.map mkWebDoc) none ?_ d hdm
    intro x hx
    obtain ⟨t, _, rfl⟩ := List.mem_map.mp hx
    rfl

/-- Witness for claim C8 at the concrete one-document corpus. -/
theorem pipelines_same_texts_witness :
    ((seleneCreateVectorStore fsBoth).fs.chromaContents.map Doc.text
        = (webCreateVectorStore fsBoth).fs.chromaContents.map Doc.text)
  ∧ seleneChunkW.sourceFile = some actFileName
  ∧ webChunkW.sourceFile = none :=
  ⟨(pipelines_same_texts actPages fsBoth rfl rfl).1,
   (pipelines_same_texts actPages fsBoth rfl rfl).2.1 seleneChunkW (by decide),
   (pipelines_same_texts actPages fsBoth rfl rfl).2.2 webChunkW (by decide)⟩

-- ===========================================================================
-- Claim C9: reset
-- ===========================================================================

/-- Claim C9: `reset_vector_store` deletes the persisted index wholesale and
is a no-op (not an error) when none exists: after every call the persisted
index location does not exist, and when it already did not exist the state is
returned unchanged with no delete performed. -/
theorem reset_safe (fs : FS) :
    ((resetVectorStore fs).1.chromaExists = false)
  ∧ (fs.chromaExists = false → resetVectorStore fs = (fs, [])) := by
  constructor
  · by_cases h : fs.chromaExists = true
    · simp [resetVectorStore, h]
    · simp only [Bool.not_eq_true] at h
      simp [resetVectorStore, h]
  · intro h
    simp [resetVectorStore, h]

/-- Witness for claim C9 at a concrete already-absent state. -/
theorem reset_safe_witness :
    ((resetVectorStore fsEmptyDir).1.chromaExists = false)
  ∧ resetVectorStore fsEmptyDir = (fsEmptyDir, []) :=
  ⟨(reset_safe fsEmptyDir).1, (reset_safe fsEmptyDir).2 rfl⟩

-- ===========================================================================
-- Claim C10: initialize_rag runs its setup at most once
-- ===========================================================================

/-- Claim C10: `initialize_rag` performs its expensive setup at most once per
process: a successful call leaves the global `rag_chain` non-`None`; a call
finding `rag_chain` already set returns immediately with no effects and an
unchanged state; hence the call after a successful one is such a no-op. -/
theorem initialize_rag_once (st : WebState) :
    ((initializeRag st).result = Except.ok () → (initializeRag st).state.ragChain ≠ none)
  ∧ (st.ragChain ≠ none →
      initializeRag st = { result := Except.ok (), state := st, trace := [] })
  ∧ ((initializeRag st).result = Except.ok () →
      initializeRag ((initializeRag st).state)
        = { result := Except.ok (), state := (initializeRag st).state, trace := [] }) := by
  cases hrc : st.ragChain with
  | some c =>
    refine ⟨?_, ?_, ?_⟩
    · intro _
      simp [initializeRag, hrc]
    · intro _
      simp [initializeRag, hrc]
    · intro _
      simp [initializeRag, hrc]
  | none =>
    cases hst : (webSetupVectorStore st.fs).store with
    | ok vs =>
      refine ⟨?_, ?_, ?_⟩
      · intro _
        simp [initializeRag, hrc, hst]
      · intro hcontra
        exact absurd rfl hcontra
      · intro _
        simp [initializeRag, hrc, hst]
    | error e =>
      refine ⟨?_, ?_, ?_⟩
      · intro hok
        simp [initializeRag, hrc, hst] at hok
      · intro hcontra
        exact absurd rfl hcontra
      · intro hok
        simp [initializeRag, hrc, hst] at hok

/-- Witness for claim C10 at a concrete already-initialized state. -/
theorem initialize_rag_once_witness :
    initializeRag stReady = { result := Except.ok (), state := stReady, trace := [] } :=
  (initialize_rag_once stReady).2.1 (by decide)
